import Mathlib

/-!
Shallow embedding of the NotSteam catalog engine (Convex mutations and
queries over the `games` table, its five attribute join tables and the
`game_aliases` table).

Modelling conventions:
* A Convex document id is a `Nat`, assigned from a `nextId` counter on every
  insert; tables are lists kept in insertion order (the order a Convex index
  returns rows of equal key, by `_creationTime`).
* A field validated as `v.optional(v.union(T, v.null()))` is an
  `Option (Option T)`: `none` = absent, `some none` = JavaScript `null`,
  `some (some x)` = a value.  JavaScript `a ?? b` on such a field is
  `jsCoalesce`; `a ?? undefined` is `jsFlat`.
* JavaScript numbers are modelled as `Int` (the data only carries integral
  years, decades, ratings and playtimes; `NaN`, which `computeDecade` maps
  to `undefined`, is not representable and is subsumed by absence).
* `Date.now()` is an explicit `now : Int` argument.
* The store's full-text search primitive is abstracted as a parameter
  `m : String → String → Bool` (`m query text`); a search-index query
  returns the rows whose indexed field satisfies `m`, in table order.
* `.unique()` is modelled as `List.find?` (first row with the key).
* `parent_game` supplied as a raw string is resolved in `addGame` exactly as
  the source does; in `updateGame` the source passes the value through
  unresolved, and the embedding covers the id/null/absent cases
  (`Option (Option Nat)`), which are the only ones the schema accepts.
-/

/-- The JavaScript `.toLowerCase()` host primitive, modelled as per-character
ASCII case mapping over the string's character sequence (all catalog data is
ASCII). -/
def jsToLower (s : String) : String :=
  String.mk (s.data.map Char.toLower)

/-- Whitespace as stripped by the JavaScript `.trim()` host primitive
(restricted to the ASCII whitespace the catalog data can contain). -/
def isJsWhitespace (c : Char) : Bool :=
  c == ' ' || c == '\t' || c == '\n' || c == '\r'

/-- The JavaScript `.trim()` host primitive: drop whitespace from both ends. -/
def jsTrim (s : String) : String :=
  String.mk (((s.data.dropWhile isJsWhitespace).reverse.dropWhile
    isJsWhitespace).reverse)

/-- `normalizeString` from the source: `null`/`undefined` ↦ `undefined`,
otherwise trim whitespace and lower-case. -/
def normalizeString (value : Option String) : Option String :=
  match value with
  | none => none
  | some s => some (jsToLower (jsTrim s))

/-- `computeDecade` from the source: `Math.floor(year / 10) * 10` on a
present year, `undefined` on an absent one (floor division on `Int` is
`Int.fdiv`, which matches `Math.floor` of the real quotient for integral
years). -/
def computeDecade (year : Option Int) : Option Int :=
  match year with
  | none => none
  | some y => some (Int.fdiv y 10 * 10)

/-- JavaScript `incoming ?? existing` where `incoming` may be absent, `null`
or a value and `existing` may be absent or a value. -/
def jsCoalesce {α : Type} (incoming : Option (Option α)) (existing : Option α) :
    Option α :=
  match incoming with
  | some (some v) => some v
  | _ => existing

/-- JavaScript `x ?? undefined` on an absent/null/value field. -/
def jsFlat {α : Type} (x : Option (Option α)) : Option α :=
  match x with
  | some (some v) => some v
  | _ => none

/-- The scalar and denormalized-array part of a `games` row (the `doc`
written by `ctx.db.insert("games", …)` / patched by `updateGame`). -/
structure GameDoc where
  display_name : String
  normalized_name : String
  aliases : Option (List String) := none
  summary : String
  franchise : Option String := none
  developer : Option String := none
  publisher : Option String := none
  release_year : Option Int := none
  release_decade : Option Int := none
  age_rating : Option String := none
  setting : Option String := none
  world_type : Option String := none
  price_model : Option String := none
  story_focus : Option String := none
  playtime_hours : Option Int := none
  rating : Option Int := none
  has_microtransactions : Option Bool := none
  is_vr : Option Bool := none
  has_mods : Option Bool := none
  requires_online : Option Bool := none
  cross_platform : Option Bool := none
  is_remake_or_remaster : Option Bool := none
  is_dlc : Option Bool := none
  procedurally_generated : Option Bool := none
  parent_game : Option Nat := none
  genre : Option (List String) := none
  platforms : Option (List String) := none
  tags : Option (List String) := none
  multiplayer_type : Option (List String) := none
  input_methods : Option (List String) := none
  createdAt : Int := 0
  updatedAt : Int := 0
  perspective : Option String := none
deriving DecidableEq, Repr

/-- A `games` row: store-assigned id plus document. -/
structure GameRow where
  id : Nat
  doc : GameDoc
deriving DecidableEq, Repr

/-- A join-table row (`game_platforms` / `game_genres` / `game_tags` /
`game_multiplayer` / `game_inputs`): entity reference, attribute value and
the denormalized year/decade copies. -/
structure JoinRow where
  id : Nat
  gameId : Nat
  value : String
  release_year : Option Int := none
  release_decade : Option Int := none
deriving DecidableEq, Repr

/-- A `game_aliases` row. -/
structure AliasRow where
  id : Nat
  gameId : Nat
  al : String
  notes : Option String := none
deriving DecidableEq, Repr

/-- The catalog store: the `games` table, one list per join table, the alias
table, and the id counter. -/
structure Store where
  games : List GameRow := []
  game_platforms : List JoinRow := []
  game_genres : List JoinRow := []
  game_tags : List JoinRow := []
  game_multiplayer : List JoinRow := []
  game_inputs : List JoinRow := []
  game_aliases : List AliasRow := []
  nextId : Nat := 0
deriving DecidableEq, Repr

/-- `parent_game` argument: `v.union(v.id("games"), v.null(), v.string())`. -/
inductive ParentRef where
  | ref (i : Nat)
  | null
  | str (s : String)
deriving DecidableEq, Repr

/-- The argument object of the `addGame` mutation. -/
structure AddArgs where
  display_name : String
  normalized_name : Option (Option String) := none
  summary : String
  release_year : Option (Option Int) := none
  developer : Option (Option String) := none
  publisher : Option (Option String) := none
  franchise : Option (Option String) := none
  genre : Option (Option (List String)) := none
  platforms : Option (Option (List String)) := none
  age_rating : Option (Option String) := none
  setting : Option (Option String) := none
  world_type : Option (Option String) := none
  multiplayer_type : Option (Option (List String)) := none
  input_methods : Option (Option (List String)) := none
  story_focus : Option (Option String) := none
  playtime_hours : Option (Option Int) := none
  tags : Option (Option (List String)) := none
  rating : Option (Option Int) := none
  price_model : Option (Option String) := none
  has_microtransactions : Option (Option Bool) := none
  is_vr : Option (Option Bool) := none
  has_mods : Option (Option Bool) := none
  requires_online : Option (Option Bool) := none
  cross_platform : Option (Option Bool) := none
  is_remake_or_remaster : Option (Option Bool) := none
  is_dlc : Option (Option Bool) := none
  parent_game : Option ParentRef := none
  procedurally_generated : Option (Option Bool) := none
  aliases : Option (Option (List String)) := none
  perspective : Option (Option String) := none
deriving DecidableEq, Repr

/-- Result of `addGame`: `{ _id, inserted }`. -/
structure AddResult where
  _id : Nat
  inserted : Bool
deriving DecidableEq, Repr

/-- The `games.withIndex("by_normalized_name", …).unique()` lookup. -/
def findByNormalizedName (games : List GameRow) (n : String) : Option GameRow :=
  games.find? (fun g => g.doc.normalized_name == n)

/-- `(args.normalized_name ?? args.display_name)!` — the value `addGame`
stores as `normalized_name` and keys its idempotency lookup on.  Note the
source applies no trimming or case-folding here. -/
def addGameName (args : AddArgs) : String :=
  match args.normalized_name with
  | some (some n) => n
  | _ => args.display_name

/-- The alias-insertion loop shared by the mutations: normalize each alias,
skip falsy results (JavaScript `if (!aliasNorm) continue`, which skips the
empty string), and append one `game_aliases` row per surviving value.
No existence check is performed. -/
def insertAliasRows (rows : List AliasRow) (nextId gameId : Nat)
    (aliases : List String) (notes : Option String) : List AliasRow × Nat :=
  aliases.foldl
    (fun acc a =>
      match normalizeString (some a) with
      | none => acc
      | some n =>
        if n = "" then acc
        else (acc.1 ++ [⟨acc.2, gameId, n, notes⟩], acc.2 + 1))
    (rows, nextId)

/-- `safeInsertMany` from the source: on a present, non-empty value list
append one join row per value, carrying the resolved year/decade. -/
def safeInsertMany (rows : List JoinRow) (nextId gameId : Nat)
    (values : Option (List String)) (ry rd : Option Int) :
    List JoinRow × Nat :=
  match values with
  | none => (rows, nextId)
  | some vs =>
    vs.foldl
      (fun acc v => (acc.1 ++ [⟨acc.2, gameId, v, ry, rd⟩], acc.2 + 1))
      (rows, nextId)

/-- The `if (aliases && aliases.length > 0) { … insert … }` block shared by
both branches of `addGame`: attach each normalized incoming alias to the
given entity, with no existence check. -/
def attachAliases (s : Store) (gid : Nat)
    (aliasesField : Option (Option (List String))) : Store :=
  match jsFlat aliasesField with
  | some aliases =>
    if aliases.length > 0 then
      let r := insertAliasRows s.game_aliases s.nextId gid aliases none
      { s with game_aliases := r.1, nextId := r.2 }
    else s
  | none => s

/-- The document `addGame`'s insert branch writes into the `games` table
(the `ctx.db.insert("games", …)` literal).  `parent_game` given as a string
is resolved by exact `normalized_name` lookup (unresolved ↦ null); a
reference is trusted; null/absent ↦ null. -/
def addGameDoc (s : Store) (args : AddArgs) (now : Int) : GameDoc :=
  let releaseYear := jsFlat args.release_year
  let releaseDecade := computeDecade releaseYear
  let normalizedName := addGameName args
  let parentGameId : Option Nat :=
    match args.parent_game with
    | some (.str p) => (findByNormalizedName s.games p).map (fun g => g.id)
    | some (.ref i) => some i
    | _ => none
  { display_name := args.display_name
    normalized_name := normalizedName
    aliases := none
    summary := args.summary
    franchise := jsFlat args.franchise
    developer := jsFlat args.developer
    publisher := jsFlat args.publisher
    release_year := releaseYear
    release_decade := releaseDecade
    age_rating := jsFlat args.age_rating
    setting := jsFlat args.setting
    perspective := jsFlat args.perspective
    world_type := jsFlat args.world_type
    price_model := jsFlat args.price_model
    story_focus := jsFlat args.story_focus
    playtime_hours := jsFlat args.playtime_hours
    rating := jsFlat args.rating
    has_microtransactions := jsFlat args.has_microtransactions
    is_vr := jsFlat args.is_vr
    has_mods := jsFlat args.has_mods
    requires_online := jsFlat args.requires_online
    cross_platform := jsFlat args.cross_platform
    is_remake_or_remaster := jsFlat args.is_remake_or_remaster
    is_dlc := jsFlat args.is_dlc
    procedurally_generated := jsFlat args.procedurally_generated
    parent_game := parentGameId
    genre := jsFlat args.genre
    platforms := jsFlat args.platforms
    tags := jsFlat args.tags
    multiplayer_type := jsFlat args.multiplayer_type
    input_methods := jsFlat args.input_methods
    createdAt := now
    updatedAt := now }

/-- The `addGame` mutation handler. -/
def addGame (s : Store) (args : AddArgs) (now : Int) : Store × AddResult :=
  let releaseYear := jsFlat args.release_year
  let releaseDecade := computeDecade releaseYear
  let normalizedName := addGameName args
  match findByNormalizedName s.games normalizedName with
  | some existing =>
    -- Existing entity: attach incoming aliases (no duplicate check) and
    -- report `inserted: false`.
    (attachAliases s existing.id args.aliases, ⟨existing.id, false⟩)
  | none =>
    let gameId := s.nextId
    let doc := addGameDoc s args now
    let s₁ : Store := { s with games := s.games ++ [GameRow.mk gameId doc], nextId := s.nextId + 1 }
    let pl := safeInsertMany s₁.game_platforms s₁.nextId gameId
      (jsFlat args.platforms) releaseYear releaseDecade
    let ge := safeInsertMany s₁.game_genres pl.2 gameId
      (jsFlat args.genre) releaseYear releaseDecade
    let tg := safeInsertMany s₁.game_tags ge.2 gameId
      (jsFlat args.tags) releaseYear releaseDecade
    let mp := safeInsertMany s₁.game_multiplayer tg.2 gameId
      (jsFlat args.multiplayer_type) releaseYear releaseDecade
    let inp := safeInsertMany s₁.game_inputs mp.2 gameId
      (jsFlat args.input_methods) releaseYear releaseDecade
    let s₂ : Store := { s₁ with game_platforms := pl.1, game_genres := ge.1,
                                game_tags := tg.1, game_multiplayer := mp.1,
                                game_inputs := inp.1, nextId := inp.2 }
    (attachAliases s₂ gameId args.aliases, ⟨gameId, true⟩)

/-- Result of `upsertAliases`: `{ _id, upserted }` (`_id` is `null` when no
game resolves). -/
structure UpsertResult where
  _id : Option Nat
  upserted : Nat
deriving DecidableEq, Repr

/-- The `upsertAliases` mutation handler.  `m` is the store's full-text
match primitive (used by the `search_display_name` fallback). -/
def upsertAliases (m : String → String → Bool) (s : Store)
    (title : String) (aliases : List String) (notes : Option (Option String)) :
    Store × UpsertResult :=
  let normalizedCandidate := normalizeString (some title)
  let game₀ := findByNormalizedName s.games title
  let game₁ :=
    match game₀, normalizedCandidate with
    | none, some c =>
      if c ≠ "" ∧ c ≠ title then findByNormalizedName s.games c else none
    | g, _ => g
  let game₂ :=
    match game₁ with
    | none => ((s.games.filter (fun g : GameRow => m title g.doc.display_name)).take 1).head?
    | g => g
  match game₂ with
  | none => (s, ⟨none, 0⟩)
  | some game =>
    let step := fun (acc : List AliasRow × Nat × Nat) (a : String) =>
      match normalizeString (some a) with
      | none => acc
      | some aliasNorm =>
        if aliasNorm = "" then acc
        else
          let existingForAlias :=
            (acc.1.filter (fun r : AliasRow => r.al == aliasNorm)).take 50
          if existingForAlias.any (fun r => r.gameId == game.id) then acc
          else
            (acc.1 ++ [AliasRow.mk acc.2.1 game.id aliasNorm (jsFlat notes)],
             acc.2.1 + 1, acc.2.2 + 1)
    let res := aliases.foldl step (s.game_aliases, s.nextId, 0)
    ({ s with game_aliases := res.1, nextId := res.2.1 }, ⟨some game.id, res.2.2⟩)

/-- The argument object of the `updateGame` mutation (every field optional;
`parent_game` restricted to the id/null/absent cases the schema stores). -/
structure UpdateArgs where
  id : Nat
  display_name : Option String := none
  normalized_name : Option (Option String) := none
  summary : Option String := none
  release_year : Option (Option Int) := none
  developer : Option (Option String) := none
  publisher : Option (Option String) := none
  franchise : Option (Option String) := none
  genre : Option (Option (List String)) := none
  platforms : Option (Option (List String)) := none
  age_rating : Option (Option String) := none
  setting : Option (Option String) := none
  perspective : Option (Option String) := none
  world_type : Option (Option String) := none
  multiplayer_type : Option (Option (List String)) := none
  input_methods : Option (Option (List String)) := none
  story_focus : Option (Option String) := none
  playtime_hours : Option (Option Int) := none
  tags : Option (Option (List String)) := none
  rating : Option (Option Int) := none
  price_model : Option (Option String) := none
  has_microtransactions : Option (Option Bool) := none
  is_vr : Option (Option Bool) := none
  has_mods : Option (Option Bool) := none
  requires_online : Option (Option Bool) := none
  cross_platform : Option (Option Bool) := none
  is_remake_or_remaster : Option (Option Bool) := none
  is_dlc : Option (Option Bool) := none
  parent_game : Option (Option Nat) := none
  procedurally_generated : Option (Option Bool) := none
  aliases : Option (Option (List String)) := none
deriving DecidableEq, Repr

/-- Result of `updateGame`: `{ _id, updated }`. -/
structure UpdateResult where
  _id : Nat
  updated : Bool
deriving DecidableEq, Repr

/-- `ctx.db.get(id)` on the `games` table. -/
def getGame (games : List GameRow) (i : Nat) : Option GameRow :=
  games.find? (fun g => g.id == i)

/-- The patch object `updateGame` writes over the existing document:
field-by-field JavaScript `incoming ?? existing`, except that
`normalized_name` falls back through the incoming `display_name`, and
`release_decade`/`updatedAt` are recomputed. -/
def patchDoc (existing : GameDoc) (args : UpdateArgs) (now : Int) : GameDoc :=
  let releaseYear := jsCoalesce args.release_year existing.release_year
  let releaseDecade := computeDecade releaseYear
  let normalizedName :=
    match args.normalized_name with
    | some (some n) => n
    | _ =>
      match args.display_name with
      | some d => d
      | none => existing.normalized_name
  { existing with
    display_name := args.display_name.getD existing.display_name
    normalized_name := normalizedName
    summary := args.summary.getD existing.summary
    franchise := jsCoalesce args.franchise existing.franchise
    developer := jsCoalesce args.developer existing.developer
    publisher := jsCoalesce args.publisher existing.publisher
    release_year := releaseYear
    release_decade := releaseDecade
    age_rating := jsCoalesce args.age_rating existing.age_rating
    setting := jsCoalesce args.setting existing.setting
    perspective := jsCoalesce args.perspective existing.perspective
    world_type := jsCoalesce args.world_type existing.world_type
    price_model := jsCoalesce args.price_model existing.price_model
    story_focus := jsCoalesce args.story_focus existing.story_focus
    playtime_hours := jsCoalesce args.playtime_hours existing.playtime_hours
    rating := jsCoalesce args.rating existing.rating
    has_microtransactions :=
      jsCoalesce args.has_microtransactions existing.has_microtransactions
    is_vr := jsCoalesce args.is_vr existing.is_vr
    has_mods := jsCoalesce args.has_mods existing.has_mods
    requires_online := jsCoalesce args.requires_online existing.requires_online
    cross_platform := jsCoalesce args.cross_platform existing.cross_platform
    is_remake_or_remaster :=
      jsCoalesce args.is_remake_or_remaster existing.is_remake_or_remaster
    is_dlc := jsCoalesce args.is_dlc existing.is_dlc
    procedurally_generated :=
      jsCoalesce args.procedurally_generated existing.procedurally_generated
    parent_game := jsCoalesce args.parent_game existing.parent_game
    genre := jsCoalesce args.genre existing.genre
    platforms := jsCoalesce args.platforms existing.platforms
    tags := jsCoalesce args.tags existing.tags
    multiplayer_type := jsCoalesce args.multiplayer_type existing.multiplayer_type
    input_methods := jsCoalesce args.input_methods existing.input_methods
    updatedAt := now }

/-- `clearJoin` from `updateGame`: fetch at most the first 1000 rows of the
`by_game` index for this entity and delete each fetched row by id. -/
def clearJoin (table : List JoinRow) (gid : Nat) : List JoinRow :=
  let doomed := ((table.filter (fun r => r.gameId == gid)).take 1000).map (fun r => r.id)
  table.filter (fun r => ! doomed.contains r.id)

/-- The alias variant of `clearJoin` (the source's `clearJoin` is also
called on `game_aliases`). -/
def clearAliasJoin (table : List AliasRow) (gid : Nat) : List AliasRow :=
  let doomed := ((table.filter (fun r => r.gameId == gid)).take 1000).map (fun r => r.id)
  table.filter (fun r => ! doomed.contains r.id)

/-- One `if (args.x != null) { clearJoin; safeInsertMany }` branch of
`updateGame`'s join reconciliation. -/
def reconcileJoin (table : List JoinRow) (nextId gid : Nat)
    (field : Option (Option (List String))) (ry rd : Option Int) :
    List JoinRow × Nat :=
  match field with
  | some (some l) => safeInsertMany (clearJoin table gid) nextId gid (some l) ry rd
  | _ => (table, nextId)

/-- The `updateGame` mutation handler. -/
def updateGame (s : Store) (args : UpdateArgs) (now : Int) :
    Store × UpdateResult :=
  match getGame s.games args.id with
  | none => (s, ⟨args.id, false⟩)
  | some existing =>
    let releaseYear := jsCoalesce args.release_year existing.doc.release_year
    let releaseDecade := computeDecade releaseYear
    let newDoc := patchDoc existing.doc args now
    let games' := s.games.map
      (fun g => if g.id == args.id then GameRow.mk g.id newDoc else g)
    let pl := reconcileJoin s.game_platforms s.nextId args.id
      args.platforms releaseYear releaseDecade
    let ge := reconcileJoin s.game_genres pl.2 args.id
      args.genre releaseYear releaseDecade
    let tg := reconcileJoin s.game_tags ge.2 args.id
      args.tags releaseYear releaseDecade
    let mp := reconcileJoin s.game_multiplayer tg.2 args.id
      args.multiplayer_type releaseYear releaseDecade
    let inp := reconcileJoin s.game_inputs mp.2 args.id
      args.input_methods releaseYear releaseDecade
    let al : List AliasRow × Nat :=
      match args.aliases with
      | some (some l) =>
        let cleared := clearAliasJoin s.game_aliases args.id
        if l.length > 0 then insertAliasRows cleared inp.2 args.id l none
        else (cleared, inp.2)
      | _ => (s.game_aliases, inp.2)
    ({ s with games := games', game_platforms := pl.1, game_genres := ge.1,
              game_tags := tg.1, game_multiplayer := mp.1, game_inputs := inp.1,
              game_aliases := al.1, nextId := al.2 },
     ⟨args.id, true⟩)

/-- `Math.max(1, Math.min(args.limit ?? d, hi))` — the limit clamp used by
every query. -/
def clampLimit (limit : Option Int) (d hi : Int) : Nat :=
  (max 1 (min (limit.getD d) hi)).toNat

/-- A paginated result (`page`, `isDone`, `continueCursor`); cursors are
modelled as start offsets into the index scan. -/
structure PageResult where
  page : List GameRow
  isDone : Bool
  continueCursor : Option Nat
deriving DecidableEq, Repr

/-- `.paginate({ numItems, cursor })` over an index scan given as a list. -/
def paginate (rows : List GameRow) (n : Nat) (cursor : Option Nat) : PageResult :=
  let start := cursor.getD 0
  let done := rows.length ≤ start + n
  ⟨(rows.drop start).take n, done, if done then none else some (start + n)⟩

/-- The rows of a full-text search index over an optional field: rows whose
field is present and satisfies the match primitive, in table order. -/
def searchHits (games : List GameRow) (field : GameRow → Option String)
    (m : String → String → Bool) (q : String) : List GameRow :=
  games.filter (fun g => match field g with
    | some t => m q t
    | none => false)

/-- The `searchGamesByName` query: display-name search and normalized-name
search, each truncated to the clamped limit, concatenated, de-duplicated by
id keeping first occurrences, and truncated again. -/
def searchGamesByName (m : String → String → Bool) (s : Store)
    (q : String) (limit : Option Int) : List GameRow :=
  let n := clampLimit limit 20 50
  let byDisplay := (searchHits s.games (fun g => some g.doc.display_name) m q).take n
  let byNormalized := (searchHits s.games (fun g => some g.doc.normalized_name) m q).take n
  let merged := (byDisplay ++ byNormalized).foldl
    (fun acc g => if acc.any (fun h => h.id == g.id) then acc else acc ++ [g]) []
  merged.take n

/-- The `listGamesByDeveloper` query: exact `by_developer` index page first;
on an empty page, a `search_developer` full-text fallback returned as a
terminal page. -/
def listGamesByDeveloper (m : String → String → Bool) (s : Store)
    (developer : String) (cursor : Option Nat) (limit : Option Int) : PageResult :=
  let n := clampLimit limit 25 100
  let page := paginate (s.games.filter (fun g => g.doc.developer == some developer)) n cursor
  if page.page.length = 0 then
    ⟨(searchHits s.games (fun g => g.doc.developer) m developer).take n, true, none⟩
  else page

/-- The `listGamesByPublisher` query: exact `by_publisher` index page first;
on an empty page, a `search_publisher` full-text fallback returned as a
terminal page. -/
def listGamesByPublisher (m : String → String → Bool) (s : Store)
    (publisher : String) (cursor : Option Nat) (limit : Option Int) : PageResult :=
  let n := clampLimit limit 25 100
  let page := paginate (s.games.filter (fun g => g.doc.publisher == some publisher)) n cursor
  if page.page.length = 0 then
    ⟨(searchHits s.games (fun g => g.doc.publisher) m publisher).take n, true, none⟩
  else page

/-- The `listGamesByFranchise` query: exact `by_franchise` index page first;
on an empty page, a full-text fallback over `display_name` (not over the
franchise field) returned as a terminal page. -/
def listGamesByFranchise (m : String → String → Bool) (s : Store)
    (franchise : String) (cursor : Option Nat) (limit : Option Int) : PageResult :=
  let n := clampLimit limit 25 100
  let page := paginate (s.games.filter (fun g => g.doc.franchise == some franchise)) n cursor
  if page.page.length = 0 then
    ⟨(searchHits s.games (fun g => some g.doc.display_name) m franchise).take n, true, none⟩
  else page

/-! ## Derived definitions used by the specifications -/

/-- The rows `safeInsertMany` appends for a value list: consecutive ids from
`n`, all referencing entity `g`. -/
def mkJoinRows : Nat → Nat → List String → Option Int → Option Int → List JoinRow
  | _, _, [], _, _ => []
  | n, g, v :: vs, ry, rd => JoinRow.mk n g v ry rd :: mkJoinRows (n + 1) g vs ry rd

/-- The alias rows the alias-insertion loop appends: consecutive ids from
`n`, one row per alias whose normalized form is non-empty. -/
def mkAliasRows : Nat → Nat → List String → Option String → List AliasRow
  | _, _, [], _ => []
  | n, g, a :: as, notes =>
    match normalizeString (some a) with
    | none => mkAliasRows n g as notes
    | some v =>
      if v = "" then mkAliasRows n g as notes
      else AliasRow.mk n g v notes :: mkAliasRows (n + 1) g as notes

/-- The alias strings actually written for an incoming alias array: the
normalized forms that are non-empty, in order. -/
def aliasValues (l : List String) : List String :=
  l.filterMap (fun a =>
    match normalizeString (some a) with
    | none => none
    | some v => if v = "" then none else some v)

/-- Store invariant used by the reconciliation theorems: row ids are unique
within each satellite table (Convex `_id`s are globally unique). -/
def idsNodup (s : Store) : Prop :=
  (s.game_platforms.map JoinRow.id).Nodup
  ∧ (s.game_genres.map JoinRow.id).Nodup
  ∧ (s.game_tags.map JoinRow.id).Nodup
  ∧ (s.game_multiplayer.map JoinRow.id).Nodup
  ∧ (s.game_inputs.map JoinRow.id).Nodup
  ∧ (s.game_aliases.map AliasRow.id).Nodup

instance (s : Store) : Decidable (idsNodup s) := by
  unfold idsNodup
  infer_instance

/-! ## Concrete instances used by witnesses and counterexamples -/

/-- Arguments used by concrete C2 instances: a create with display name
`"Portal 2"` and an explicitly null `normalized_name`. -/
def portalArgs : AddArgs :=
  { display_name := "Portal 2", normalized_name := some none, summary := "" }

/-- A one-game store (entity id 0, name `"a"`) used by concrete instances. -/
def oneGameStore : Store :=
  { games := [GameRow.mk 0 { display_name := "a", normalized_name := "a", summary := "" }],
    nextId := 1 }

/-- The single row of `oneGameStore`. -/
def aRow : GameRow :=
  GameRow.mk 0 { display_name := "a", normalized_name := "a", summary := "" }

/-- A store whose entity 0 carries 1001 tag join rows. -/
def bigTagStore : Store :=
  { games := [GameRow.mk 0 { display_name := "a", normalized_name := "a", summary := "" }],
    game_tags := mkJoinRows 1 0 (List.replicate 1001 "rpg") none none,
    nextId := 1002 }

/-- An exact-equality instance of the abstract full-text match primitive,
used by concrete instances. -/
def eqMatch : String → String → Bool := fun q t => q == t

/-- A store holding one game (`"portal 2"`, id 0) that already carries the
alias row `"p2"`. -/
def p2Store : Store :=
  { games := [GameRow.mk 0 { display_name := "Portal 2", normalized_name := "portal 2", summary := "" }],
    game_aliases := [AliasRow.mk 1 0 "p2" none],
    nextId := 2 }

/-- A re-ingestion of the `p2Store` game that carries the alias `"P2 "`
(which normalizes to the already-attached `"p2"`). -/
def p2Args : AddArgs :=
  { display_name := "Portal 2", normalized_name := some (some "portal 2"),
    summary := "", aliases := some (some ["P2 "]) }

/-- A store holding one game whose franchise is `"zelda"` but whose display
name is `"mario"`. -/
def zeldaStore : Store :=
  { games := [GameRow.mk 0 { display_name := "mario", normalized_name := "mario", summary := "", franchise := some "zelda" }],
    nextId := 1 }

/-- A store whose entity 0 carries the two tag join rows of the spec's
replace-all example. -/
def twoTagStore : Store :=
  { games := [GameRow.mk 0 { display_name := "a", normalized_name := "a", summary := "" }],
    game_tags := mkJoinRows 1 0 ["rpg", "indie"] none none,
    nextId := 3 }

/-! ## Basic lemmas about the embedding -/

theorem attachAliases_games (s : Store) (gid : Nat)
    (f : Option (Option (List String))) :
    (attachAliases s gid f).games = s.games := by
  unfold attachAliases
  cases jsFlat f with
  | none => rfl
  | some l =>
    dsimp only
    split <;> rfl

/-- `addGame` when the idempotency lookup misses: one new entity row is
appended and the call reports `inserted: true` with the new id. -/
theorem addGame_not_found (s : Store) (a : AddArgs) (now : Int)
    (h : findByNormalizedName s.games (addGameName a) = none) :
    (addGame s a now).1.games
        = s.games ++ [GameRow.mk s.nextId (addGameDoc s a now)]
      ∧ (addGame s a now).2 = ⟨s.nextId, true⟩ := by
  simp only [addGame, h]
  exact ⟨by simp [attachAliases_games], trivial⟩

/-- `addGame` when the idempotency lookup hits: the `games` table is left
unchanged and the call reports `inserted: false` with the found id. -/
theorem addGame_found (s : Store) (a : AddArgs) (now : Int) (g : GameRow)
    (h : findByNormalizedName s.games (addGameName a) = some g) :
    (addGame s a now).1.games = s.games
      ∧ (addGame s a now).2 = ⟨g.id, false⟩ := by
  simp only [addGame, h]
  exact ⟨attachAliases_games .., trivial⟩

theorem findByNormalizedName_append_singleton (l : List GameRow) (r : GameRow)
    (n : String) (h : findByNormalizedName l n = none)
    (hr : r.doc.normalized_name = n) :
    findByNormalizedName (l ++ [r]) n = some r := by
  unfold findByNormalizedName at *
  rw [List.find?_append, h]
  simp [List.find?, hr]

/-- `updateGame` on an id that resolves: the entity row is patched in place
with `patchDoc` and the call reports `updated: true`. -/
theorem updateGame_found (s : Store) (args : UpdateArgs) (now : Int) (g : GameRow)
    (h : getGame s.games args.id = some g) :
    (updateGame s args now).1.games
        = s.games.map (fun x =>
            if x.id == args.id then GameRow.mk x.id (patchDoc g.doc args now) else x)
      ∧ (updateGame s args now).2 = ⟨args.id, true⟩ := by
  constructor
  · simp only [updateGame, h]
  · simp only [updateGame, h]

theorem getGame_map_patch (l : List GameRow) (i : Nat) (d : GameDoc) (g : GameRow)
    (h : getGame l i = some g) :
    getGame (l.map (fun x => if x.id == i then GameRow.mk x.id d else x)) i
      = some (GameRow.mk g.id d) := by
  unfold getGame at *
  induction l with
  | nil => simp at h
  | cons x t ih =>
    rw [List.map_cons]
    by_cases hx : x.id = i
    · have hxb : (x.id == i) = true := by simpa using hx
      have hmapped : (if (x.id == i) = true then GameRow.mk x.id d else x)
          = GameRow.mk x.id d := by simp [hxb]
      rw [hmapped,
        List.find?_cons_of_pos (p := fun g : GameRow => g.id == i) _ (by simpa using hx)]
      rw [List.find?_cons_of_pos (p := fun g : GameRow => g.id == i) _ hxb] at h
      have h' : g = x := (Option.some.inj h).symm
      simp [h']
    · have hxb : (x.id == i) = false := by simpa using hx
      have hmapped : (if (x.id == i) = true then GameRow.mk x.id d else x) = x := by
        simp [hxb]
      rw [hmapped,
        List.find?_cons_of_neg (p := fun g : GameRow => g.id == i) _ (by simp [hxb])]
      rw [List.find?_cons_of_neg (p := fun g : GameRow => g.id == i) _ (by simp [hxb])] at h
      exact ih h

/-! ## Claim theorems -/

/-- C7: an `updateGame` call whose `id` does not resolve to an existing
entity returns the structured result `updated = false` and leaves the whole
store — every table and the id counter — unchanged; no entity is created. -/
theorem updateGame_not_found (s : Store) (args : UpdateArgs) (now : Int)
    (h : getGame s.games args.id = none) :
    updateGame s args now = (s, ⟨args.id, false⟩) := by
  simp only [updateGame, h]

/-- Witness for C7 at a concrete input. -/
theorem updateGame_not_found_witness :
    updateGame {} { id := 5 } 0 = ({}, ⟨5, false⟩) :=
  updateGame_not_found {} { id := 5 } 0 rfl

/-- Counterexample to C2 as stated: `addGame` stores the supplied name raw —
creating `{display_name: "Portal 2"}` stores `normalized_name = "Portal 2"`,
not the whitespace-trimmed case-folded `"portal 2"` that `normalizeString`
would produce. -/
theorem addGame_no_normalization_cex :
    ((addGame {} portalArgs 0).1.games.map
        (fun g => g.doc.normalized_name)) = ["Portal 2"]
    ∧ normalizeString (some "Portal 2") = some "portal 2"
    ∧ "Portal 2" ≠ "portal 2" := by
  refine ⟨rfl, by decide, by decide⟩

/-- C2 (amended): the stored `normalized_name` is the raw supplied
`normalized_name` when present and non-null, otherwise the raw
`display_name` — no trimming or case-folding is applied — and the
idempotency lookup is keyed on exactly this raw value. -/
theorem addGame_raw_name (s : Store) (a : AddArgs) (now : Int) :
    (∀ n, a.normalized_name = some (some n) → addGameName a = n)
    ∧ ((a.normalized_name = none ∨ a.normalized_name = some none) →
        addGameName a = a.display_name)
    ∧ (findByNormalizedName s.games (addGameName a) = none →
        (addGame s a now).1.games.map (fun g => g.doc.normalized_name)
          = s.games.map (fun g => g.doc.normalized_name) ++ [addGameName a])
    ∧ (∀ g, findByNormalizedName s.games (addGameName a) = some g →
        (addGame s a now).1.games = s.games
          ∧ (addGame s a now).2 = ⟨g.id, false⟩) := by
  refine ⟨?_, ?_, ?_, ?_⟩
  · intro n hn; simp [addGameName, hn]
  · rintro (hn | hn) <;> simp [addGameName, hn]
  · intro h
    rw [(addGame_not_found s a now h).1]
    simp [addGameDoc]
  · intro g h
    exact addGame_found s a now g h

/-- Witness for C2's amended theorem at a concrete input. -/
theorem addGame_raw_name_witness :
    (addGame {} portalArgs 0).1.games.map (fun g => g.doc.normalized_name)
      = [addGameName portalArgs]
    ∧ addGameName portalArgs = "Portal 2" :=
  ⟨(addGame_raw_name {} portalArgs 0).2.2.1 rfl,
   (addGame_raw_name {} portalArgs 0).2.1 (Or.inr rfl)⟩

/-- C5: on both write paths the stored `release_decade` is recomputed from
the resolved `release_year` — `floor(Y/10)*10` when the resolved year is a
number `Y` (`addGame` resolves `args.release_year ?? undefined`, `updateGame`
resolves `args.release_year ?? existing.release_year`), absent when the
resolved year is absent — and never taken from the input document (which
carries no decade field at all). -/
theorem decade_derivation (s : Store) (a : AddArgs) (u : UpdateArgs)
    (t t' : Int) (g : GameRow)
    (ha : findByNormalizedName s.games (addGameName a) = none)
    (hu : getGame s.games u.id = some g) :
    ((addGame s a t).1.games
        = s.games ++ [GameRow.mk s.nextId (addGameDoc s a t)]
      ∧ (addGameDoc s a t).release_year = jsFlat a.release_year
      ∧ (∀ y, jsFlat a.release_year = some y →
          (addGameDoc s a t).release_decade = some (Int.fdiv y 10 * 10))
      ∧ (jsFlat a.release_year = none → (addGameDoc s a t).release_decade = none))
    ∧ (∃ r, getGame (updateGame s u t').1.games u.id = some r
        ∧ r.doc.release_year = jsCoalesce u.release_year g.doc.release_year
        ∧ (∀ y, jsCoalesce u.release_year g.doc.release_year = some y →
            r.doc.release_decade = some (Int.fdiv y 10 * 10))
        ∧ (jsCoalesce u.release_year g.doc.release_year = none →
            r.doc.release_decade = none)) := by
  constructor
  · refine ⟨(addGame_not_found s a t ha).1, by simp [addGameDoc], ?_, ?_⟩
    · intro y hy; simp [addGameDoc, hy, computeDecade]
    · intro hy; simp [addGameDoc, hy, computeDecade]
  · refine ⟨GameRow.mk g.id (patchDoc g.doc u t'), ?_, ?_, ?_, ?_⟩
    · rw [(updateGame_found s u t' g hu).1]
      exact getGame_map_patch s.games u.id (patchDoc g.doc u t') g hu
    · simp [patchDoc]
    · intro y hy; simp [patchDoc, hy, computeDecade]
    · intro hy; simp [patchDoc, hy, computeDecade]

/-- Witness for C5 at a concrete input: a fresh create with
`release_year = 1998` and an update of an existing entity that supplies
`release_year = 2011`. -/
theorem decade_derivation_witness :
    ((addGameDoc oneGameStore
        { display_name := "b", summary := "", release_year := some (some 1998) }
        0).release_decade = some 1990)
    ∧ (∃ r, getGame (updateGame oneGameStore
          { id := 0, release_year := some (some 2011) } 0).1.games 0 = some r
        ∧ r.doc.release_decade = some 2010) := by
  have h := decade_derivation oneGameStore
    { display_name := "b", summary := "", release_year := some (some 1998) }
    { id := 0, release_year := some (some 2011) } 0 0
    (GameRow.mk 0 { display_name := "a", normalized_name := "a", summary := "" })
    (by decide) (by decide)
  obtain ⟨⟨-, -, h1, -⟩, r, hr, -, h2, -⟩ := h
  refine ⟨?_, r, hr, ?_⟩
  · simpa using h1 1998 rfl
  · simpa using h2 2011 rfl

/-- C1: starting from a store with no entity under the resulting
normalized name, calling `addGame` twice with the same resulting
`normalized_name` leaves exactly one entity row under that name; the second
call appends no entity row, reports `inserted = false`, and returns the id
the first call created. -/
theorem addGame_idempotent (s : Store) (a₁ a₂ : AddArgs) (t₁ t₂ : Int)
    (hfresh : ∀ g ∈ s.games, g.doc.normalized_name ≠ addGameName a₁)
    (hsame : addGameName a₂ = addGameName a₁) :
    ((addGame (addGame s a₁ t₁).1 a₂ t₂).1.games.countP
        (fun g => g.doc.normalized_name == addGameName a₁)) = 1
    ∧ (addGame (addGame s a₁ t₁).1 a₂ t₂).2.inserted = false
    ∧ (addGame (addGame s a₁ t₁).1 a₂ t₂).2._id = (addGame s a₁ t₁).2._id
    ∧ (addGame (addGame s a₁ t₁).1 a₂ t₂).1.games = (addGame s a₁ t₁).1.games := by
  have h0 : findByNormalizedName s.games (addGameName a₁) = none := by
    unfold findByNormalizedName
    exact List.find?_eq_none.mpr (fun g hg => by simpa using hfresh g hg)
  obtain ⟨hg1, hr1⟩ := addGame_not_found s a₁ t₁ h0
  have hrname : (addGameDoc s a₁ t₁).normalized_name = addGameName a₁ := by
    simp [addGameDoc]
  have h2 : findByNormalizedName (addGame s a₁ t₁).1.games (addGameName a₂)
      = some (GameRow.mk s.nextId (addGameDoc s a₁ t₁)) := by
    rw [hsame, hg1]
    exact findByNormalizedName_append_singleton _ _ _ h0 hrname
  obtain ⟨hg2, hr2⟩ := addGame_found _ a₂ t₂ _ h2
  refine ⟨?_, ?_, ?_, hg2⟩
  · rw [hg2, hg1, List.countP_append]
    have hz : s.games.countP (fun g => g.doc.normalized_name == addGameName a₁) = 0 :=
      List.countP_eq_zero.mpr (fun g hg => by simpa using hfresh g hg)
    simp [hz, List.countP_cons, hrname]
  · rw [hr2]
  · rw [hr2, hr1]

/-- Witness for C1 at a concrete input: creating `"g"` twice in the empty
store. -/
theorem addGame_idempotent_witness :
    ((addGame (addGame {} { display_name := "g", summary := "" } 0).1
        { display_name := "g", summary := "" } 1).1.games.countP
        (fun g => g.doc.normalized_name == addGameName
          { display_name := "g", summary := "" })) = 1
    ∧ (addGame (addGame {} { display_name := "g", summary := "" } 0).1
        { display_name := "g", summary := "" } 1).2.inserted = false :=
  have h := addGame_idempotent {} { display_name := "g", summary := "" }
    { display_name := "g", summary := "" } 0 1 (by simp) rfl
  ⟨h.1, h.2.1⟩

/-- Counterexample to C3 as stated: `normalized_name` is a scalar field, yet
an update that omits `normalized_name` but supplies `display_name = "Mario"`
stores `normalized_name = "Mario"` instead of keeping the previously stored
`"a"` — the fallback chain is `incoming.normalized_name ??
incoming.display_name ?? existing.normalized_name`, not `incoming ??
existing`. -/
theorem updateGame_scalar_cex :
    ((getGame (updateGame oneGameStore { id := 0, display_name := some "Mario" }
        0).1.games 0).map (fun r => r.doc.normalized_name) = some "Mario")
    ∧ ((getGame oneGameStore.games 0).map (fun r => r.doc.normalized_name)
        = some "a")
    ∧ ({ id := 0, display_name := some "Mario" } : UpdateArgs).normalized_name
        = none := by
  refine ⟨by decide, by decide, rfl⟩

/-- C3 (amended): on an existing entity, every scalar field of the payload
except `normalized_name` is stored as `incoming ?? existing` — the incoming
value when present and non-null, the previously stored value otherwise, so
an explicit null never clears a field — while `normalized_name` is stored
as `incoming.normalized_name ?? incoming.display_name ??
existing.normalized_name`. -/
theorem updateGame_scalar_fallback (s : Store) (args : UpdateArgs) (now : Int)
    (g : GameRow) (h : getGame s.games args.id = some g) :
    ∃ r, getGame (updateGame s args now).1.games args.id = some r
      ∧ r.id = g.id
      ∧ r.doc.display_name = args.display_name.getD g.doc.display_name
      ∧ r.doc.summary = args.summary.getD g.doc.summary
      ∧ r.doc.franchise = jsCoalesce args.franchise g.doc.franchise
      ∧ r.doc.developer = jsCoalesce args.developer g.doc.developer
      ∧ r.doc.publisher = jsCoalesce args.publisher g.doc.publisher
      ∧ r.doc.release_year = jsCoalesce args.release_year g.doc.release_year
      ∧ r.doc.age_rating = jsCoalesce args.age_rating g.doc.age_rating
      ∧ r.doc.setting = jsCoalesce args.setting g.doc.setting
      ∧ r.doc.perspective = jsCoalesce args.perspective g.doc.perspective
      ∧ r.doc.world_type = jsCoalesce args.world_type g.doc.world_type
      ∧ r.doc.price_model = jsCoalesce args.price_model g.doc.price_model
      ∧ r.doc.story_focus = jsCoalesce args.story_focus g.doc.story_focus
      ∧ r.doc.playtime_hours = jsCoalesce args.playtime_hours g.doc.playtime_hours
      ∧ r.doc.rating = jsCoalesce args.rating g.doc.rating
      ∧ r.doc.has_microtransactions
          = jsCoalesce args.has_microtransactions g.doc.has_microtransactions
      ∧ r.doc.is_vr = jsCoalesce args.is_vr g.doc.is_vr
      ∧ r.doc.has_mods = jsCoalesce args.has_mods g.doc.has_mods
      ∧ r.doc.requires_online = jsCoalesce args.requires_online g.doc.requires_online
      ∧ r.doc.cross_platform = jsCoalesce args.cross_platform g.doc.cross_platform
      ∧ r.doc.is_remake_or_remaster
          = jsCoalesce args.is_remake_or_remaster g.doc.is_remake_or_remaster
      ∧ r.doc.is_dlc = jsCoalesce args.is_dlc g.doc.is_dlc
      ∧ r.doc.procedurally_generated
          = jsCoalesce args.procedurally_generated g.doc.procedurally_generated
      ∧ r.doc.parent_game = jsCoalesce args.parent_game g.doc.parent_game
      ∧ r.doc.normalized_name = (match args.normalized_name with
          | some (some n) => n
          | _ => match args.display_name with
            | some d => d
            | none => g.doc.normalized_name)
      ∧ (∀ (α : Type) (e : Option α) (v : α),
          jsCoalesce (some (some v)) e = some v
          ∧ jsCoalesce (some none) e = e
          ∧ jsCoalesce none e = e) := by
  refine ⟨GameRow.mk g.id (patchDoc g.doc args now), ?_, ?_⟩
  · rw [(updateGame_found s args now g h).1]
    exact getGame_map_patch s.games args.id _ g h
  · refine ⟨rfl, ?_⟩
    simp [patchDoc, jsCoalesce]

/-- Witness for C3's amended theorem at a concrete input: an update carrying
an explicitly null `rating` leaves `rating` at its stored value. -/
theorem updateGame_scalar_fallback_witness :
    ∃ r, getGame (updateGame oneGameStore { id := 0, rating := some none }
        0).1.games 0 = some r
      ∧ r.doc.rating = jsCoalesce (some none) aRow.doc.rating := by
  obtain ⟨r, hfind, -, -, -, -, -, -, -, -, -, -, -, -, -, -, hrat, -⟩ :=
    updateGame_scalar_fallback oneGameStore { id := 0, rating := some none } 0
      aRow (by decide)
  exact ⟨r, hfind, hrat⟩

/-! ## Reconciliation lemmas -/

/-- Deleting, from a list with unique keys, exactly the keys of its first
`n` elements leaves its `drop n` suffix. -/
theorem filter_not_contains_take {α : Type} (key : α → Nat) :
    ∀ (n : Nat) (l : List α), (l.map key).Nodup →
      l.filter (fun r => ! ((l.take n).map key).contains (key r)) = l.drop n := by
  intro n l
  induction l generalizing n with
  | nil => intro _; simp
  | cons x t ih =>
    intro hnodup
    cases n with
    | zero => simp
    | succ n =>
      simp only [List.take_succ_cons, List.map_cons, List.drop_succ_cons]
      rw [List.filter_cons]
      have hx : (! ((key x :: (t.take n).map key).contains (key x))) = false := by
        simp [List.contains_cons]
      rw [hx]
      simp only [Bool.false_eq_true, if_false]
      have hcong : t.filter
            (fun r => ! ((key x :: (t.take n).map key).contains (key r)))
          = t.filter (fun r => ! (((t.take n).map key).contains (key r))) := by
        apply List.filter_congr
        intro r hr
        have hne : key r ≠ key x := by
          intro he
          exact (List.nodup_cons.mp hnodup).1 (he ▸ List.mem_map_of_mem key hr)
        simp [List.contains_cons, hne]
      rw [hcong]
      exact ih n (List.nodup_cons.mp hnodup).2

/-- The delete phase of `clearJoin` restricted to the target entity: it
removes exactly the first 1000 of that entity's rows. -/
theorem clearJoin_filter_self (table : List JoinRow) (gid : Nat)
    (h : (table.map JoinRow.id).Nodup) :
    (clearJoin table gid).filter (fun r => r.gameId == gid)
      = (table.filter (fun r => r.gameId == gid)).drop 1000 := by
  unfold clearJoin
  have h1 : (table.filter (fun r =>
        ! (((table.filter (fun r => r.gameId == gid)).take 1000).map
            JoinRow.id).contains r.id)).filter (fun r => r.gameId == gid)
      = (table.filter (fun r => r.gameId == gid)).filter (fun r =>
          ! (((table.filter (fun r => r.gameId == gid)).take 1000).map
              JoinRow.id).contains r.id) := by
    rw [List.filter_filter, List.filter_filter]
    exact List.filter_congr (fun a _ => Bool.and_comm _ _)
  rw [h1]
  apply filter_not_contains_take JoinRow.id 1000
  exact List.Nodup.sublist (List.Sublist.map JoinRow.id (List.filter_sublist table)) h

/-- The alias-table analogue of `clearJoin_filter_self`. -/
theorem clearAliasJoin_filter_self (table : List AliasRow) (gid : Nat)
    (h : (table.map AliasRow.id).Nodup) :
    (clearAliasJoin table gid).filter (fun r => r.gameId == gid)
      = (table.filter (fun r => r.gameId == gid)).drop 1000 := by
  unfold clearAliasJoin
  have h1 : (table.filter (fun r =>
        ! (((table.filter (fun r => r.gameId == gid)).take 1000).map
            AliasRow.id).contains r.id)).filter (fun r => r.gameId == gid)
      = (table.filter (fun r => r.gameId == gid)).filter (fun r =>
          ! (((table.filter (fun r => r.gameId == gid)).take 1000).map
              AliasRow.id).contains r.id) := by
    rw [List.filter_filter, List.filter_filter]
    exact List.filter_congr (fun a _ => Bool.and_comm _ _)
  rw [h1]
  apply filter_not_contains_take AliasRow.id 1000
  exact List.Nodup.sublist (List.Sublist.map AliasRow.id (List.filter_sublist table)) h

/-- `safeInsertMany` on a present value list appends `mkJoinRows` and
advances the id counter by the number of values. -/
theorem safeInsertMany_some (rows : List JoinRow) (nid gid : Nat)
    (l : List String) (ry rd : Option Int) :
    safeInsertMany rows nid gid (some l) ry rd
      = (rows ++ mkJoinRows nid gid l ry rd, nid + l.length) := by
  induction l generalizing rows nid with
  | nil => simp [safeInsertMany, mkJoinRows]
  | cons v vs ih =>
    have h := ih (rows ++ [JoinRow.mk nid gid v ry rd]) (nid + 1)
    unfold safeInsertMany at h ⊢
    simp only [List.foldl_cons] at h ⊢
    rw [h]
    simp [mkJoinRows, List.append_assoc]
    omega

theorem mkJoinRows_filter_self (n gid : Nat) (l : List String) (ry rd : Option Int) :
    (mkJoinRows n gid l ry rd).filter (fun r => r.gameId == gid)
      = mkJoinRows n gid l ry rd := by
  induction l generalizing n with
  | nil => simp [mkJoinRows]
  | cons v vs ih => simp [mkJoinRows, List.filter_cons, ih]

theorem mkJoinRows_map_value (n gid : Nat) (l : List String) (ry rd : Option Int) :
    (mkJoinRows n gid l ry rd).map JoinRow.value = l := by
  induction l generalizing n with
  | nil => simp [mkJoinRows]
  | cons v vs ih => simp [mkJoinRows, ih]

theorem mkJoinRows_length (n gid : Nat) (l : List String) (ry rd : Option Int) :
    (mkJoinRows n gid l ry rd).length = l.length := by
  induction l generalizing n with
  | nil => simp [mkJoinRows]
  | cons v vs ih => simp [mkJoinRows, ih]

theorem mkJoinRows_id_ge (n gid : Nat) (l : List String) (ry rd : Option Int) :
    ∀ r ∈ mkJoinRows n gid l ry rd, n ≤ r.id := by
  induction l generalizing n with
  | nil => simp [mkJoinRows]
  | cons v vs ih =>
    intro r hr
    simp only [mkJoinRows, List.mem_cons] at hr
    rcases hr with hr | hr
    · subst hr; exact Nat.le_refl n
    · exact Nat.le_of_succ_le (ih (n + 1) r hr)

theorem mkJoinRows_ids_nodup (n gid : Nat) (l : List String) (ry rd : Option Int) :
    ((mkJoinRows n gid l ry rd).map JoinRow.id).Nodup := by
  induction l generalizing n with
  | nil => simp [mkJoinRows]
  | cons v vs ih =>
    simp only [mkJoinRows, List.map_cons, List.nodup_cons]
    refine ⟨?_, ih (n + 1)⟩
    intro hmem
    obtain ⟨r, hr, hid⟩ := List.mem_map.mp hmem
    have := mkJoinRows_id_ge (n + 1) gid vs ry rd r hr
    omega

/-- The supplied-field branch of join reconciliation: the entity's rows
after the call are the old rows beyond the first 1000 followed by one fresh
row per value of the new array. -/
theorem reconcileJoin_supplied (table : List JoinRow) (nid gid : Nat)
    (l : List String) (ry rd : Option Int)
    (h : (table.map JoinRow.id).Nodup) :
    (reconcileJoin table nid gid (some (some l)) ry rd).1.filter
        (fun r => r.gameId == gid)
      = (table.filter (fun r => r.gameId == gid)).drop 1000
          ++ mkJoinRows nid gid l ry rd := by
  simp only [reconcileJoin]
  rw [safeInsertMany_some]
  simp only
  rw [List.filter_append, clearJoin_filter_self table gid h, mkJoinRows_filter_self]

/-- The absent/null branch of join reconciliation: a no-op. -/
theorem reconcileJoin_skip (table : List JoinRow) (nid gid : Nat)
    (f : Option (Option (List String))) (ry rd : Option Int)
    (h : f = none ∨ f = some none) :
    reconcileJoin table nid gid f ry rd = (table, nid) := by
  rcases h with h | h <;> simp [reconcileJoin, h]

/-- The alias-insertion loop appends `mkAliasRows` and advances the id
counter by the number of surviving (non-empty normalized) aliases. -/
theorem insertAliasRows_eq (rows : List AliasRow) (nid gid : Nat)
    (l : List String) (notes : Option String) :
    insertAliasRows rows nid gid l notes
      = (rows ++ mkAliasRows nid gid l notes, nid + (aliasValues l).length) := by
  induction l generalizing rows nid with
  | nil => simp [insertAliasRows, mkAliasRows, aliasValues]
  | cons a as ih =>
    unfold insertAliasRows at ih ⊢
    simp only [List.foldl_cons]
    cases hv : normalizeString (some a) with
    | none =>
      simp only [hv]
      rw [ih rows nid]
      simp [mkAliasRows, aliasValues, List.filterMap_cons, hv]
    | some v =>
      by_cases hve : v = ""
      · simp only [hv, hve, eq_self_iff_true, if_true]
        rw [ih rows nid]
        simp [mkAliasRows, aliasValues, List.filterMap_cons, hv, hve]
      · simp only [hv, if_neg hve]
        rw [ih (rows ++ [AliasRow.mk nid gid v notes]) (nid + 1)]
        simp [mkAliasRows, aliasValues, List.filterMap_cons, hv, hve,
          List.append_assoc]
        omega

theorem mkAliasRows_filter_self (n gid : Nat) (l : List String)
    (notes : Option String) :
    (mkAliasRows n gid l notes).filter (fun r => r.gameId == gid)
      = mkAliasRows n gid l notes := by
  induction l generalizing n with
  | nil => simp [mkAliasRows]
  | cons a as ih =>
    unfold mkAliasRows
    cases hv : normalizeString (some a) with
    | none => exact ih n
    | some v =>
      by_cases hve : v = ""
      · simp only [hve, if_pos rfl]
        exact ih n
      · simp only [if_neg hve]
        simp [List.filter_cons, ih]

theorem mkAliasRows_map_al (n gid : Nat) (l : List String) (notes : Option String) :
    (mkAliasRows n gid l notes).map AliasRow.al = aliasValues l := by
  induction l generalizing n with
  | nil => simp [mkAliasRows, aliasValues]
  | cons a as ih =>
    unfold mkAliasRows
    cases hv : normalizeString (some a) with
    | none => simp [aliasValues, List.filterMap_cons, hv, ih]
    | some v =>
      by_cases hve : v = ""
      · simp only [hve, if_pos rfl]
        simp [aliasValues, List.filterMap_cons, hv, hve, ih]
      · simp only [if_neg hve]
        simp [aliasValues, List.filterMap_cons, hv, hve, ih]

/-- Counterexample to C4 as stated: on an entity holding 1001 tag join rows,
updating with `tags = ["roguelike"]` leaves TWO tag rows (`"rpg"` survives
as the 1001st row beyond the 1000-row delete window, plus the new
`"roguelike"`), not exactly one row per value of the new array. -/
theorem updateGame_replace_all_cex :
    ((updateGame bigTagStore { id := 0, tags := some (some ["roguelike"]) }
        0).1.game_tags.filter (fun r => r.gameId == 0)).map JoinRow.value
      = ["rpg", "roguelike"]
    ∧ (bigTagStore.game_tags.filter (fun r => r.gameId == 0)).length = 1001 := by
  have hfind : getGame bigTagStore.games 0 = some aRow := by decide
  have hnodup : (bigTagStore.game_tags.map JoinRow.id).Nodup := by
    show ((mkJoinRows 1 0 (List.replicate 1001 "rpg") none none).map
      JoinRow.id).Nodup
    exact mkJoinRows_ids_nodup 1 0 _ none none
  have hfs : bigTagStore.game_tags.filter (fun r => r.gameId == 0)
      = bigTagStore.game_tags := by
    show (mkJoinRows 1 0 (List.replicate 1001 "rpg") none none).filter _
      = mkJoinRows 1 0 (List.replicate 1001 "rpg") none none
    exact mkJoinRows_filter_self 1 0 _ none none
  constructor
  · simp only [updateGame, hfind]
    rw [reconcileJoin_supplied _ _ _ _ _ _ hnodup]
    rw [List.map_append, mkJoinRows_map_value, hfs]
    have hdrop : ((bigTagStore.game_tags.drop 1000).map JoinRow.value)
        = ["rpg"] := by
      rw [List.map_drop]
      show ((mkJoinRows 1 0 (List.replicate 1001 "rpg") none none).map
        JoinRow.value).drop 1000 = ["rpg"]
      rw [mkJoinRows_map_value, List.drop_replicate]
      rfl
    rw [hdrop]
    rfl
  · rw [hfs]
    show (mkJoinRows 1 0 (List.replicate 1001 "rpg") none none).length = 1001
    rw [mkJoinRows_length, List.length_replicate]

/-- C4 (amended): for every `updateGame` call on an existing entity and
every multi-valued attribute, if the call supplies that field (even as an
empty array) and the entity holds at most 1000 existing join rows in that
table, the entity's join rows afterwards are exactly one row per value of
the new array, in order; if the call omits the field, or supplies it as
null, the table is untouched. -/
theorem updateGame_replace_all (s : Store) (args : UpdateArgs) (now : Int)
    (g : GameRow) (h : getGame s.games args.id = some g) (hids : idsNodup s) :
    ((∀ l, args.platforms = some (some l) →
        (s.game_platforms.filter (fun r => r.gameId == args.id)).length ≤ 1000 →
        ((updateGame s args now).1.game_platforms.filter
            (fun r => r.gameId == args.id)).map JoinRow.value = l)
      ∧ ((args.platforms = none ∨ args.platforms = some none) →
          (updateGame s args now).1.game_platforms = s.game_platforms))
    ∧ ((∀ l, args.genre = some (some l) →
        (s.game_genres.filter (fun r => r.gameId == args.id)).length ≤ 1000 →
        ((updateGame s args now).1.game_genres.filter
            (fun r => r.gameId == args.id)).map JoinRow.value = l)
      ∧ ((args.genre = none ∨ args.genre = some none) →
          (updateGame s args now).1.game_genres = s.game_genres))
    ∧ ((∀ l, args.tags = some (some l) →
        (s.game_tags.filter (fun r => r.gameId == args.id)).length ≤ 1000 →
        ((updateGame s args now).1.game_tags.filter
            (fun r => r.gameId == args.id)).map JoinRow.value = l)
      ∧ ((args.tags = none ∨ args.tags = some none) →
          (updateGame s args now).1.game_tags = s.game_tags))
    ∧ ((∀ l, args.multiplayer_type = some (some l) →
        (s.game_multiplayer.filter (fun r => r.gameId == args.id)).length ≤ 1000 →
        ((updateGame s args now).1.game_multiplayer.filter
            (fun r => r.gameId == args.id)).map JoinRow.value = l)
      ∧ ((args.multiplayer_type = none ∨ args.multiplayer_type = some none) →
          (updateGame s args now).1.game_multiplayer = s.game_multiplayer))
    ∧ ((∀ l, args.input_methods = some (some l) →
        (s.game_inputs.filter (fun r => r.gameId == args.id)).length ≤ 1000 →
        ((updateGame s args now).1.game_inputs.filter
            (fun r => r.gameId == args.id)).map JoinRow.value = l)
      ∧ ((args.input_methods = none ∨ args.input_methods = some none) →
          (updateGame s args now).1.game_inputs = s.game_inputs)) := by
  obtain ⟨hpl, hge, htg, hmp, hin, -⟩ := hids
  refine ⟨⟨?_, ?_⟩, ⟨?_, ?_⟩, ⟨?_, ?_⟩, ⟨?_, ?_⟩, ⟨?_, ?_⟩⟩
  · intro l hl hlen
    simp only [updateGame, h, hl]
    rw [reconcileJoin_supplied _ _ _ _ _ _ hpl, List.map_append,
      mkJoinRows_map_value, List.drop_eq_nil_of_le hlen]
    rfl
  · intro hl
    simp only [updateGame, h]
    rw [reconcileJoin_skip _ _ _ _ _ _ hl]
  · intro l hl hlen
    simp only [updateGame, h, hl]
    rw [reconcileJoin_supplied _ _ _ _ _ _ hge, List.map_append,
      mkJoinRows_map_value, List.drop_eq_nil_of_le hlen]
    rfl
  · intro hl
    simp only [updateGame, h]
    rw [reconcileJoin_skip _ _ _ _ _ _ hl]
  · intro l hl hlen
    simp only [updateGame, h, hl]
    rw [reconcileJoin_supplied _ _ _ _ _ _ htg, List.map_append,
      mkJoinRows_map_value, List.drop_eq_nil_of_le hlen]
    rfl
  · intro hl
    simp only [updateGame, h]
    rw [reconcileJoin_skip _ _ _ _ _ _ hl]
  · intro l hl hlen
    simp only [updateGame, h, hl]
    rw [reconcileJoin_supplied _ _ _ _ _ _ hmp, List.map_append,
      mkJoinRows_map_value, List.drop_eq_nil_of_le hlen]
    rfl
  · intro hl
    simp only [updateGame, h]
    rw [reconcileJoin_skip _ _ _ _ _ _ hl]
  · intro l hl hlen
    simp only [updateGame, h, hl]
    rw [reconcileJoin_supplied _ _ _ _ _ _ hin, List.map_append,
      mkJoinRows_map_value, List.drop_eq_nil_of_le hlen]
    rfl
  · intro hl
    simp only [updateGame, h]
    rw [reconcileJoin_skip _ _ _ _ _ _ hl]

/-- Witness for C4's amended theorem: the spec's own example — an entity
with tags `["rpg", "indie"]` updated with `tags = ["roguelike"]` ends with
exactly the one tag row `"roguelike"`. -/
theorem updateGame_replace_all_witness :
    ((updateGame twoTagStore { id := 0, tags := some (some ["roguelike"]) }
        0).1.game_tags.filter (fun r => r.gameId == 0)).map JoinRow.value
      = ["roguelike"] := by
  have h := updateGame_replace_all twoTagStore
    { id := 0, tags := some (some ["roguelike"]) } 0 aRow (by decide) (by decide)
  exact h.2.2.1.1 ["roguelike"] rfl (by decide)

/-- C10: the delete phase of `updateGame`'s replace-all reconciliation
fetches and deletes at most the first 1000 of the entity's rows in the
table, so after an update that supplies the field the entity's rows are the
old rows beyond the first 1000 (which survive) followed by the new array's
rows; the replace-all postcondition therefore holds exactly when the entity
had at most 1000 rows in that table.  Stated for the delete phase itself,
for the tag join table, and for the alias table. -/
theorem updateGame_clear_cap (s : Store) (args : UpdateArgs) (now : Int)
    (g : GameRow) (h : getGame s.games args.id = some g) (hids : idsNodup s) :
    (∀ (table : List JoinRow) (gid : Nat), (table.map JoinRow.id).Nodup →
        (clearJoin table gid).filter (fun r => r.gameId == gid)
          = (table.filter (fun r => r.gameId == gid)).drop 1000)
    ∧ (∀ l, args.tags = some (some l) →
        ((updateGame s args now).1.game_tags.filter
            (fun r => r.gameId == args.id)).map JoinRow.value
          = ((s.game_tags.filter (fun r => r.gameId == args.id)).drop
              1000).map JoinRow.value ++ l)
    ∧ (∀ l, args.aliases = some (some l) →
        ((updateGame s args now).1.game_aliases.filter
            (fun r => r.gameId == args.id)).map AliasRow.al
          = ((s.game_aliases.filter (fun r => r.gameId == args.id)).drop
              1000).map AliasRow.al ++ aliasValues l) := by
  obtain ⟨-, -, htg, -, -, hal⟩ := hids
  refine ⟨clearJoin_filter_self, ?_, ?_⟩
  · intro l hl
    simp only [updateGame, h, hl]
    rw [reconcileJoin_supplied _ _ _ _ _ _ htg, List.map_append,
      mkJoinRows_map_value]
  · intro l hl
    simp only [updateGame, h, hl]
    by_cases hlen : l.length > 0
    · rw [if_pos hlen, insertAliasRows_eq]
      simp only
      rw [List.filter_append, clearAliasJoin_filter_self _ _ hal,
        mkAliasRows_filter_self, List.map_append, mkAliasRows_map_al]
    · rw [if_neg hlen]
      have hnil : l = [] := List.length_eq_zero.mp (Nat.eq_zero_of_not_pos hlen)
      subst hnil
      simp only
      rw [clearAliasJoin_filter_self _ _ hal]
      simp [aliasValues]

/-- Witness for C10 at a concrete input: replacing the alias array of an
entity with fewer than 1000 alias rows. -/
theorem updateGame_clear_cap_witness :
    ((updateGame oneGameStore { id := 0, aliases := some (some ["  B "]) }
        0).1.game_aliases.filter (fun r => r.gameId == 0)).map AliasRow.al
      = ((oneGameStore.game_aliases.filter (fun r => r.gameId == 0)).drop
          1000).map AliasRow.al ++ aliasValues ["  B "] := by
  exact (updateGame_clear_cap oneGameStore
    { id := 0, aliases := some (some ["  B "]) } 0 aRow (by decide)
    (by decide)).2.2 ["  B "] rfl

/-- C6 demonstration: re-ingesting an existing game through `addGame` with
an alias that is already attached inserts a second identical
`(gameId, alias)` row — the existing-entity path of `addGame` performs no
existence check — while `upsertAliases` with the same alias checks first
and inserts nothing. -/
theorem addGame_duplicate_alias_bug :
    ((addGame p2Store p2Args 0).1.game_aliases.filter
        (fun r => r.gameId == 0 && r.al == "p2")).length = 2
    ∧ ((upsertAliases eqMatch p2Store "portal 2" ["P2 "] none).1.game_aliases.filter
        (fun r => r.gameId == 0 && r.al == "p2")).length = 1 := by
  decide

/-- Counterexample to C8 as stated: the franchise listing's fallback is a
full-text search over `display_name`, not over the franchise field — on a
store whose only game has franchise `"zelda"` and display name `"mario"`,
querying franchise `"mario"` finds no exact index row, yet the fallback
returns that game, although a full-text search over the franchise field
itself matches nothing. -/
theorem listGamesByFranchise_cex :
    (listGamesByFranchise eqMatch zeldaStore "mario" none none).page.map
        GameRow.id = [0]
    ∧ searchHits zeldaStore.games (fun g => g.doc.franchise) eqMatch "mario" = []
    ∧ zeldaStore.games.filter (fun g => g.doc.franchise == some "mario") = [] := by
  decide

/-- C8 (amended): developer/publisher/franchise listing tries the exact
secondary index page first and returns it untouched when non-empty; only on
an empty exact page does it fall back to a single full-text search — over
the same field for developer and publisher, but over `display_name` for
franchise — reported as a terminal page (`isDone`, no continuation cursor).
Exact and fuzzy results are never merged in one call. -/
theorem listGames_fallback (m : String → String → Bool) (s : Store)
    (x : String) (c : Option Nat) (lim : Option Int) :
    ((paginate (s.games.filter (fun g => g.doc.developer == some x))
          (clampLimit lim 25 100) c).page ≠ [] →
        listGamesByDeveloper m s x c lim
          = paginate (s.games.filter (fun g => g.doc.developer == some x))
              (clampLimit lim 25 100) c)
    ∧ ((paginate (s.games.filter (fun g => g.doc.developer == some x))
          (clampLimit lim 25 100) c).page = [] →
        listGamesByDeveloper m s x c lim
          = ⟨(searchHits s.games (fun g => g.doc.developer) m x).take
              (clampLimit lim 25 100), true, none⟩)
    ∧ ((paginate (s.games.filter (fun g => g.doc.publisher == some x))
          (clampLimit lim 25 100) c).page ≠ [] →
        listGamesByPublisher m s x c lim
          = paginate (s.games.filter (fun g => g.doc.publisher == some x))
              (clampLimit lim 25 100) c)
    ∧ ((paginate (s.games.filter (fun g => g.doc.publisher == some x))
          (clampLimit lim 25 100) c).page = [] →
        listGamesByPublisher m s x c lim
          = ⟨(searchHits s.games (fun g => g.doc.publisher) m x).take
              (clampLimit lim 25 100), true, none⟩)
    ∧ ((paginate (s.games.filter (fun g => g.doc.franchise == some x))
          (clampLimit lim 25 100) c).page ≠ [] →
        listGamesByFranchise m s x c lim
          = paginate (s.games.filter (fun g => g.doc.franchise == some x))
              (clampLimit lim 25 100) c)
    ∧ ((paginate (s.games.filter (fun g => g.doc.franchise == some x))
          (clampLimit lim 25 100) c).page = [] →
        listGamesByFranchise m s x c lim
          = ⟨(searchHits s.games (fun g => some g.doc.display_name) m x).take
              (clampLimit lim 25 100), true, none⟩) := by
  refine ⟨?_, ?_, ?_, ?_, ?_, ?_⟩
  · intro hp
    unfold listGamesByDeveloper
    rw [if_neg (fun hz => hp (List.length_eq_zero.mp hz))]
  · intro hp
    unfold listGamesByDeveloper
    rw [if_pos (by rw [hp]; rfl)]
  · intro hp
    unfold listGamesByPublisher
    rw [if_neg (fun hz => hp (List.length_eq_zero.mp hz))]
  · intro hp
    unfold listGamesByPublisher
    rw [if_pos (by rw [hp]; rfl)]
  · intro hp
    unfold listGamesByFranchise
    rw [if_neg (fun hz => hp (List.length_eq_zero.mp hz))]
  · intro hp
    unfold listGamesByFranchise
    rw [if_pos (by rw [hp]; rfl)]

/-- Witness for C8's amended theorem at a concrete input: a developer query
matching no exact index row returns the terminal fuzzy page. -/
theorem listGames_fallback_witness :
    listGamesByDeveloper eqMatch zeldaStore "nintendo" none none
      = ⟨(searchHits zeldaStore.games (fun g => g.doc.developer) eqMatch
          "nintendo").take (clampLimit none 25 100), true, none⟩ :=
  (listGames_fallback eqMatch zeldaStore "nintendo" none none).2.1 (by decide)

/-- The de-duplicating fold of `searchGamesByName`: folding a block with
id-unique rows onto an accumulator appends exactly the rows whose id is not
already present in the accumulator. -/
theorem dedupe_foldl (B : List GameRow) :
    ∀ A : List GameRow, (B.map GameRow.id).Nodup →
      B.foldl (fun acc g => if acc.any (fun h => h.id == g.id) then acc
          else acc ++ [g]) A
        = A ++ B.filter (fun g => ! A.any (fun h => h.id == g.id)) := by
  induction B with
  | nil => intro A _; simp
  | cons b B' ih =>
    intro A hnodup
    obtain ⟨hb, hB'⟩ := List.nodup_cons.mp hnodup
    simp only [List.foldl_cons]
    by_cases hA : A.any (fun h => h.id == b.id)
    · rw [if_pos hA, ih A hB', List.filter_cons]
      have : (! A.any (fun h => h.id == b.id)) = false := by simp [hA]
      rw [this]
      simp
    · have hAf : A.any (fun h => h.id == b.id) = false := by
        simpa using hA
      rw [if_neg (by simp [hAf]), ih (A ++ [b]) hB', List.filter_cons]
      have hkeep : (! A.any (fun h => h.id == b.id)) = true := by simp [hAf]
      rw [hkeep]
      simp only [if_true]
      have hcong : B'.filter (fun g => ! (A ++ [b]).any (fun h => h.id == g.id))
          = B'.filter (fun g => ! A.any (fun h => h.id == g.id)) := by
        apply List.filter_congr
        intro g hg
        have hne : g.id ≠ b.id := by
          intro he
          exact hb (he ▸ List.mem_map_of_mem GameRow.id hg)
        have hne2 : (b.id == g.id) = false := by
          simpa using Ne.symm hne
        simp [List.any_append, hne2]
      rw [hcong]
      simp [List.append_assoc]

/-- C9: the name-search result is the display-name full-text hits followed
by those normalized-name full-text hits whose entity is not already
present, each block truncated to the clamped limit and the concatenation
truncated again — entity-identity de-duplication, display-name hits always
first, no merged relevance ranking. -/
theorem searchGamesByName_merge (m : String → String → Bool) (s : Store)
    (q : String) (lim : Option Int)
    (h : (s.games.map GameRow.id).Nodup) :
    searchGamesByName m s q lim
      = ((searchHits s.games (fun g => some g.doc.display_name) m q).take
            (clampLimit lim 20 50)
          ++ ((searchHits s.games (fun g => some g.doc.normalized_name) m q).take
              (clampLimit lim 20 50)).filter (fun g =>
                ! ((searchHits s.games (fun g => some g.doc.display_name) m q).take
                    (clampLimit lim 20 50)).any (fun x => x.id == g.id))).take
          (clampLimit lim 20 50) := by
  have hA : (((searchHits s.games (fun g => some g.doc.display_name) m q).take
      (clampLimit lim 20 50)).map GameRow.id).Nodup :=
    List.Nodup.sublist
      (List.Sublist.map GameRow.id
        ((List.take_sublist _ _).trans (List.filter_sublist _))) h
  have hB : (((searchHits s.games (fun g => some g.doc.normalized_name) m q).take
      (clampLimit lim 20 50)).map GameRow.id).Nodup :=
    List.Nodup.sublist
      (List.Sublist.map GameRow.id
        ((List.take_sublist _ _).trans (List.filter_sublist _))) h
  simp only [searchGamesByName]
  rw [List.foldl_append, dedupe_foldl _ _ hA, dedupe_foldl _ _ hB]
  simp

/-- Witness for C9 at a concrete input. -/
theorem searchGamesByName_merge_witness :
    searchGamesByName eqMatch oneGameStore "a" none
      = ((searchHits oneGameStore.games (fun g => some g.doc.display_name)
            eqMatch "a").take (clampLimit none 20 50)
          ++ ((searchHits oneGameStore.games (fun g => some g.doc.normalized_name)
              eqMatch "a").take (clampLimit none 20 50)).filter (fun g =>
                ! ((searchHits oneGameStore.games (fun g => some g.doc.display_name)
                    eqMatch "a").take (clampLimit none 20 50)).any
                  (fun x => x.id == g.id))).take (clampLimit none 20 50) :=
  searchGamesByName_merge eqMatch oneGameStore "a" none (by decide)
